import Mathlib

/-!
Shallow embedding of `src/data_distiller.py` (Keras_insightface).

The script reads a dataset folder (via the external `pre_process_folder`),
optionally truncates it to `limit` records, batches the records, runs a
backend-selected embedding model over each batch, concatenates the per-batch
results, and writes the three parallel arrays to a `.npz` archive whose name
may be derived from the dataset's pickle-file source.

Modelling conventions:
* Python strings are `List Char`; Python lists are Lean lists.
* Embedding rows are `List ℚ` (the numeric formulas of the script are exact
  decimal constants, so ℚ represents them; float rounding is out of scope).
* An image, as produced by the external `tf_imread`, is abstract: the driver
  is parametric in an `imread` function and in the batch `interpreter`.
* `np.savez_compressed` writing to disk is modelled by returning the file
  name together with the three arrays; Python's `IndexError` on
  `embeddings[0]` for an empty record set is modelled with `Option`.
-/

namespace DataDistiller

/-- Python strings are modelled as lists of characters. -/
abbrev Str := List Char

/-- One embedding row, a numeric vector. -/
abbrev Emb := List ℚ

/-- Result of the external `pre_process_folder(data_path)` call: the parallel
lists `image_names` and `image_classes`, and `dataset_pickle_file_src`, the
path of the pickle file the dataset scan was cached in. -/
structure Dataset where
  image_names : List Str
  image_classes : List Nat
  dataset_pickle_file_src : Str

/-- Python `s.endswith(suffix)`: the suffix test on strings. -/
def strEndsWith (s suffix : Str) : Bool :=
  decide (suffix <:+ s)

/-- The string constant `".h5"` of line 75. -/
def h5ext : Str := (".h5").toList

/-- The string constant `"pth"` of line 79. -/
def pthext : Str := ("pth").toList

/-- The string constant `"pt"` of line 79. -/
def ptext : Str := ("pt").toList

/-- The string constant `".npz"` of line 108. -/
def npzext : Str := (".npz").toList

/-- Python `os.path.basename`: everything after the last `/`. -/
def basename (p : Str) : Str :=
  p.foldl (fun acc ch => if ch = '/' then [] else acc ++ [ch]) []

/-- Index of the last occurrence of `c` in `p`, or `-1` (Python `str.rfind`). -/
def lastIndexOf (c : Char) (p : Str) : Int :=
  Prod.fst (p.foldl (fun acc ch => (if ch = c then acc.2 else acc.1, acc.2 + 1))
    ((-1 : Int), (0 : Int)))

/-- The root part of CPython `os.path.splitext`: the extension starts at the
last dot, provided it lies after the last `/` and some character strictly
between the last `/` and that dot is not a dot (so leading dots of the last
component never start an extension). -/
def splitextRoot (p : Str) : Str :=
  let sepIndex := lastIndexOf '/' p
  let dotIndex := lastIndexOf '.' p
  if sepIndex < dotIndex then
    if ((p.drop (sepIndex + 1).toNat).take (dotIndex - (sepIndex + 1)).toNat).any
        (fun ch => ch != '.') then
      p.take dotIndex.toNat
    else p
  else p

/-- Fuel-indexed worker for `batches`: repeatedly split off the first
`bs` elements. The fuel (instantiated with the list length, enough whenever
`bs ≥ 1`) only serves termination. -/
def batchesAux (bs : Nat) : Nat → List α → List (List α)
  | _, [] => []
  | 0, l => [l]
  | fuel + 1, l => l.take bs :: batchesAux bs fuel (l.drop bs)

/-- `tf.data.Dataset.batch(bs)` on a finite stream: split a list into
consecutive chunks of size `bs` (the last one possibly shorter). -/
def batches (bs : Nat) (l : List α) : List (List α) :=
  batchesAux bs l.length l

/-- Lines 65-66: `if limit > 0: xs = xs[:limit]`, applied to one list. -/
def truncApply (limit : Int) (l : List α) : List α :=
  if 0 < limit then l.take limit.toNat else l

/-- Line 69: `tf.data.Dataset.from_tensor_slices((image_names, image_classes))`
after the truncation of lines 65-66 - the stream of (name, label) records. -/
def records (ds : Dataset) (limit : Int) : List (Str × Nat) :=
  (truncApply limit ds.image_names).zip (truncApply limit ds.image_classes)

/-- Line 70: the batched record stream. -/
def recordBatches (ds : Dataset) (batch_size : Nat) (limit : Int) :
    List (List (Str × Nat)) :=
  batches batch_size (records ds limit)

/-- Line 98: the concatenation of the name components of all batches
(`new_image_names.extend(imm.numpy())`). -/
def distilledNames (ds : Dataset) (batch_size : Nat) (limit : Int) : List Str :=
  ((recordBatches ds batch_size limit).map (fun b => b.map Prod.fst)).flatten

/-- Line 99: the concatenation of the label components of all batches
(`new_image_classes.extend(label.numpy())`). -/
def distilledClasses (ds : Dataset) (batch_size : Nat) (limit : Int) : List Nat :=
  ((recordBatches ds batch_size limit).map (fun b => b.map Prod.snd)).flatten

/-- Lines 93-100: for each batch, images are read with `tf_imread` from the
batch's names and fed to the interpreter; the returned rows are appended
(`embeddings.extend(emb)`). -/
def distilledEmbeddings {Img : Type} (ds : Dataset) (imread : Str → Img)
    (interpreter : List Img → List Emb) (batch_size : Nat) (limit : Int) :
    List Emb :=
  ((recordBatches ds batch_size limit).map
    (fun b => interpreter ((b.map Prod.fst).map imread))).flatten

/-- Lines 106-107: the default archive name, built from the stem of the
dataset pickle file and the embedding dimensionality. -/
def defaultDestName (ds : Dataset) (dim : Nat) : Str :=
  splitextRoot (basename ds.dataset_pickle_file_src) ++
    ("_label_embs_").toList ++ (toString dim).toList ++ npzext

/-- Line 108: `dest_file if dest_file.endswith(".npz") else dest_file + ".npz"`. -/
def ensureNpz (d : Str) : Str :=
  if strEndsWith d npzext then d else d ++ npzext

/-- Lines 61-112: `data_distiller`. The result pairs the file name written to
with the three arrays stored in the archive; `none` models the `IndexError`
raised by `embeddings[0]` on line 107 when no destination was supplied and the
record stream is empty. -/
def data_distiller {Img : Type} (ds : Dataset) (imread : Str → Img)
    (interpreter : List Img → List Emb) (dest_file : Option Str)
    (batch_size : Nat) (limit : Int) :
    Option (Str × (List Str × List Nat × List Emb)) :=
  let embeddings := distilledEmbeddings ds imread interpreter batch_size limit
  let named : Option Str :=
    match dest_file with
    | some d => some d
    | none =>
      match embeddings with
      | [] => none
      | e0 :: _ => some (defaultDestName ds e0.length)
  match named with
  | none => none
  | some d =>
      some (ensureNpz d,
        (distilledNames ds batch_size limit,
         distilledClasses ds batch_size limit,
         embeddings))

/-- Backends the script can dispatch to (lines 73-89). -/
inductive Backend where
  | keras
  | torch
  | mxnet
  | tfdirect
deriving DecidableEq

/-- The `model` argument of `data_distiller`: either a file-path string or a
non-string value used directly as a TF model (of abstract type `M`). -/
inductive ModelArg (M : Type) where
  | file : Str → ModelArg M
  | tfModel : M → ModelArg M

/-- Lines 74-89: the backend chosen from the `model` argument. -/
def selectBackend {M : Type} : ModelArg M → Backend
  | ModelArg.file s =>
      if strEndsWith s h5ext then Backend.keras
      else if strEndsWith s pthext || strEndsWith s ptext then Backend.torch
      else Backend.mxnet
  | ModelArg.tfModel _ => Backend.tfdirect

/-- An image as a list of raw pixel values (integers 0..255 for image data);
the NHWC-to-NCHW transpositions of lines 36 and 55 permute the layout only and
are not modelled on value lists. -/
abbrev Image := List Nat

/-- Line 78: the Keras interpreter,
`lambda imgs: basic_model((imgs - 127.5) * 0.0078125).numpy()`. -/
def kerasInterpreter (basic_model : List (List ℚ) → List Emb)
    (imgs : List Image) : List Emb :=
  basic_model (imgs.map (fun img => img.map (fun (p : Nat) => ((p : ℚ) - 127.5) * 0.0078125)))

/-- Line 89: the direct-TF-model interpreter,
`tf.function(lambda imgs: model((imgs - 127.5) * 0.0078125).numpy())`. -/
def tfInterpreter (model : List (List ℚ) → List Emb)
    (imgs : List Image) : List Emb :=
  model (imgs.map (fun img => img.map (fun (p : Nat) => ((p : ℚ) - 127.5) * 0.0078125)))

/-- Lines 53-58: `Torch_model_interf.__call__` casts to float32 and computes
`(imgs - 127.5) * 0.0078125` before the forward pass. -/
def Torch_model_interf_call (model : List (List ℚ) → List Emb)
    (imgs : List Image) : List Emb :=
  model (imgs.map (fun img => img.map (fun (p : Nat) => ((p : ℚ) - 127.5) * 0.0078125)))

/-- Line 82: the Torch interpreter, `lambda imgs: basic_model(imgs.numpy())`. -/
def torchInterpreter (basic_model : List (List ℚ) → List Emb)
    (imgs : List Image) : List Emb :=
  Torch_model_interf_call basic_model imgs

/-- Lines 34-41: `Mxnet_model_interf.__call__` forwards the pixel values
unchanged (mx.nd.array only converts the dtype). -/
def Mxnet_model_interf_call (model : List (List ℚ) → List Emb)
    (imgs : List Image) : List Emb :=
  model (imgs.map (fun img => img.map (fun (p : Nat) => (p : ℚ))))

/-- Line 86: the MXNet interpreter,
`lambda imgs: basic_model(imgs.numpy().astype("uint8"))`; the uint8 cast
wraps integer pixel values modulo 256. -/
def mxnetInterpreter (basic_model : List (List ℚ) → List Emb)
    (imgs : List Image) : List Emb :=
  Mxnet_model_interf_call basic_model (imgs.map (fun img => img.map (fun p => p % 256)))

/-! ### Basic lemmas about batching -/

theorem flatten_batchesAux (bs : Nat) :
    ∀ (fuel : Nat) (l : List α), (batchesAux bs fuel l).flatten = l := by
  intro fuel
  induction fuel with
  | zero => intro l; cases l <;> simp [batchesAux]
  | succ n ih =>
    intro l
    cases l with
    | nil => simp [batchesAux]
    | cons a as =>
      simp only [batchesAux, List.flatten_cons, ih]
      exact List.take_append_drop _ _

theorem flatten_batches (bs : Nat) (l : List α) :
    (batches bs l).flatten = l :=
  flatten_batchesAux bs l.length l

theorem flatten_recordBatches (ds : Dataset) (batch_size : Nat) (limit : Int) :
    (recordBatches ds batch_size limit).flatten = records ds limit :=
  flatten_batches batch_size (records ds limit)

/-! ### Structure of the accumulated output lists -/

theorem distilledNames_eq_map (ds : Dataset) (batch_size : Nat) (limit : Int) :
    distilledNames ds batch_size limit = (records ds limit).map Prod.fst := by
  unfold distilledNames
  rw [← List.map_flatten, flatten_recordBatches]

theorem distilledClasses_eq_map (ds : Dataset) (batch_size : Nat) (limit : Int) :
    distilledClasses ds batch_size limit = (records ds limit).map Prod.snd := by
  unfold distilledClasses
  rw [← List.map_flatten, flatten_recordBatches]

theorem truncApply_length_eq {l₁ : List α} {l₂ : List β} (limit : Int)
    (h : l₁.length = l₂.length) :
    (truncApply limit l₁).length = (truncApply limit l₂).length := by
  unfold truncApply
  split <;> simp [h]

theorem distilledNames_eq_trunc (ds : Dataset) (batch_size : Nat) (limit : Int)
    (hlen : ds.image_names.length = ds.image_classes.length) :
    distilledNames ds batch_size limit = truncApply limit ds.image_names := by
  rw [distilledNames_eq_map]
  exact List.map_fst_zip _ _ (Nat.le_of_eq (truncApply_length_eq limit hlen))

theorem distilledClasses_eq_trunc (ds : Dataset) (batch_size : Nat) (limit : Int)
    (hlen : ds.image_names.length = ds.image_classes.length) :
    distilledClasses ds batch_size limit = truncApply limit ds.image_classes := by
  rw [distilledClasses_eq_map]
  exact List.map_snd_zip _ _ (Nat.le_of_eq (truncApply_length_eq limit hlen).symm)

theorem length_distilledEmbeddings {Img : Type} (ds : Dataset) (imread : Str → Img)
    (interpreter : List Img → List Emb) (batch_size : Nat) (limit : Int)
    (hI : ∀ imgs, (interpreter imgs).length = imgs.length) :
    (distilledEmbeddings ds imread interpreter batch_size limit).length =
      (records ds limit).length := by
  unfold distilledEmbeddings
  rw [List.length_flatten, List.map_map]
  have h : ∀ L : List (List (Str × Nat)),
      (L.map (List.length ∘ fun b => interpreter ((b.map Prod.fst).map imread))).sum =
        (L.map List.length).sum := by
    intro L
    induction L with
    | nil => rfl
    | cons b L ih =>
      simp only [List.map_cons, List.sum_cons, Function.comp_apply, hI,
        List.length_map, ih]
  rw [h, ← List.length_flatten, flatten_recordBatches]

/-! ### suffix helpers -/

theorem strEndsWith_append (d suf : Str) : strEndsWith (d ++ suf) suf = true :=
  decide_eq_true (List.suffix_append d suf)

theorem ensureNpz_endsWith (d : Str) : strEndsWith (ensureNpz d) npzext = true := by
  unfold ensureNpz
  split
  · rename_i h
    exact h
  · exact strEndsWith_append d npzext

/-! ### Concrete inputs used by the witnesses -/

/-- Example pickle-file source path. -/
def exSrc : Str := ("faces_emore.pkl").toList

/-- Example one-record dataset. -/
def exDS : Dataset :=
  ⟨[("a.jpg").toList], [0], exSrc⟩

/-- Example empty dataset. -/
def exEmptyDS : Dataset :=
  ⟨[], [], exSrc⟩

/-- Example image reader: every file decodes to a one-pixel image. -/
def exImread : Str → Image := fun _ => [0]

/-- Example interpreter returning the 1-dimensional embedding `[1]` for each
image of the batch. -/
def exInterp : List Image → List Emb := fun imgs => imgs.map (fun _ => [(1 : ℚ)])

/-! ### Claims -/

/-- C1: in every run of `data_distiller`, the three arrays written to the
output archive have equal length, assuming each interpreter call returns one
embedding row per input image in the batch. -/
theorem c1_output_lengths_equal {Img : Type} (ds : Dataset) (imread : Str → Img)
    (interpreter : List Img → List Emb) (batch_size : Nat) (limit : Int)
    (hI : ∀ imgs, (interpreter imgs).length = imgs.length) :
    (distilledNames ds batch_size limit).length =
      (distilledClasses ds batch_size limit).length ∧
    (distilledClasses ds batch_size limit).length =
      (distilledEmbeddings ds imread interpreter batch_size limit).length := by
  constructor
  · rw [distilledNames_eq_map, distilledClasses_eq_map, List.length_map,
      List.length_map]
  · rw [distilledClasses_eq_map, List.length_map,
      length_distilledEmbeddings ds imread interpreter batch_size limit hI]

theorem c1_witness :
    (distilledNames exDS 256 (-1)).length = (distilledClasses exDS 256 (-1)).length ∧
    (distilledClasses exDS 256 (-1)).length =
      (distilledEmbeddings exDS exImread exInterp 256 (-1)).length :=
  c1_output_lengths_equal exDS exImread exInterp 256 (-1)
    (fun imgs => by simp [exInterp])

/-- C2 (amended): for every positive limit `L` the number of output records is
at most `L`; for every non-positive limit, including the default `-1`, the
output contains all dataset records. (The original claim's bound fails for
`limit = 0`, which the code treats as unlimited.) -/
theorem c2_limit_bound (ds : Dataset) (batch_size : Nat) (limit : Int)
    (hlen : ds.image_names.length = ds.image_classes.length) :
    (0 < limit → ((distilledNames ds batch_size limit).length : Int) ≤ limit) ∧
    (limit ≤ 0 → distilledNames ds batch_size limit = ds.image_names) := by
  constructor
  · intro hpos
    have h1 : (distilledNames ds batch_size limit).length ≤ limit.toNat := by
      rw [distilledNames_eq_trunc ds batch_size limit hlen]
      unfold truncApply
      rw [if_pos hpos]
      exact List.length_take_le _ _
    omega
  · intro hnonpos
    rw [distilledNames_eq_trunc ds batch_size limit hlen]
    unfold truncApply
    rw [if_neg (by omega)]

theorem c2_witness :
    ((distilledNames exDS 256 1).length : Int) ≤ 1 :=
  (c2_limit_bound exDS 256 1 rfl).1 (by decide)

/-- C2 counterexample: with `limit = 0` the code performs no truncation, so a
one-record dataset still produces one output record, refuting "output length
is at most L" at `L = 0`. -/
theorem c2_counterexample :
    data_distiller exDS exImread exInterp (some (("out").toList)) 256 0 =
      some ((("out.npz").toList),
        ([("a.jpg").toList], [0], [[(1 : ℚ)]])) ∧
    ¬ (((distilledNames exDS 256 0).length : Int) ≤ 0) := by
  constructor
  · decide
  · decide

/-- A string ending in `t ++ [c]` has `c` as its last character. -/
theorem strEndsWith_getLast (s t : Str) (c : Char)
    (h : strEndsWith s (t ++ [c]) = true) : s.getLast? = some c := by
  have hs : (t ++ [c]) <:+ s := of_decide_eq_true h
  obtain ⟨a, ha⟩ := hs
  rw [← ha, ← List.append_assoc, List.getLast?_concat]

/-- C3: the model adapter is selected by the model argument's type and file
extension: a string ending in ".h5" selects the Keras loader, a string ending
in "pth" or "pt" selects the Torch adapter, any other string selects the MXNet
adapter, and a non-string model argument is used directly as a TF model. -/
theorem c3_backend_selection {M : Type} (s : Str) (m : M) :
    (strEndsWith s h5ext = true →
      selectBackend (ModelArg.file s : ModelArg M) = Backend.keras) ∧
    ((strEndsWith s pthext = true ∨ strEndsWith s ptext = true) →
      selectBackend (ModelArg.file s : ModelArg M) = Backend.torch) ∧
    ((strEndsWith s h5ext = false ∧ strEndsWith s pthext = false ∧
        strEndsWith s ptext = false) →
      selectBackend (ModelArg.file s : ModelArg M) = Backend.mxnet) ∧
    selectBackend (ModelArg.tfModel m) = Backend.tfdirect := by
  refine ⟨?_, ?_, ?_, rfl⟩
  · intro h
    simp [selectBackend, h]
  · intro h
    have h5f : strEndsWith s h5ext = false := by
      cases hh : strEndsWith s h5ext
      · rfl
      · exfalso
        have l5 := strEndsWith_getLast s ['.', 'h'] '5' hh
        rcases h with hpth | hpt
        · have lh := strEndsWith_getLast s ['p', 't'] 'h' hpth
          rw [l5] at lh
          exact absurd lh (by decide)
        · have lt := strEndsWith_getLast s ['p'] 't' hpt
          rw [l5] at lt
          exact absurd lt (by decide)
    rcases h with h | h <;> simp [selectBackend, h5f, h]
  · intro h
    obtain ⟨h1, h2, h3⟩ := h
    simp [selectBackend, h1, h2, h3]

theorem c3_witness :
    selectBackend (ModelArg.file (("model.h5").toList) : ModelArg Unit) =
      Backend.keras ∧
    selectBackend (ModelArg.file (("model.pth").toList) : ModelArg Unit) =
      Backend.torch ∧
    selectBackend
        (ModelArg.file (("models/r50-arcface-emore/model,1").toList) :
          ModelArg Unit) = Backend.mxnet ∧
    selectBackend (ModelArg.tfModel ()) = Backend.tfdirect :=
  ⟨(c3_backend_selection (("model.h5").toList) ()).1 (by decide),
   (c3_backend_selection (("model.pth").toList) ()).2.1 (Or.inl (by decide)),
   (c3_backend_selection (("models/r50-arcface-emore/model,1").toList) ()).2.2.1
     (by decide),
   (c3_backend_selection ([] : Str) ()).2.2.2⟩

/-- Example backend model used by the C4 witness. -/
def exQModel : List (List ℚ) → List Emb := fun x => x

/-- C4: each backend applies a fixed pixel normalization before inference:
the Keras, direct-TF-model, and Torch adapters compute
`(pixel - 127.5) * 0.0078125` on the input batch, while the MXNet adapter
applies no normalization: it casts pixels to uint8 (the identity on pixel
values `≤ 255`) and forwards them unchanged. -/
theorem c4_fixed_normalization (model : List (List ℚ) → List Emb)
    (imgs : List Image)
    (hpix : ∀ img ∈ imgs, ∀ p ∈ img, p ≤ 255) :
    kerasInterpreter model imgs =
      model (imgs.map (List.map (fun (p : Nat) => ((p : ℚ) - 127.5) * 0.0078125))) ∧
    tfInterpreter model imgs =
      model (imgs.map (List.map (fun (p : Nat) => ((p : ℚ) - 127.5) * 0.0078125))) ∧
    torchInterpreter model imgs =
      model (imgs.map (List.map (fun (p : Nat) => ((p : ℚ) - 127.5) * 0.0078125))) ∧
    mxnetInterpreter model imgs =
      model (imgs.map (List.map (fun (p : Nat) => (p : ℚ)))) := by
  refine ⟨rfl, rfl, rfl, ?_⟩
  unfold mxnetInterpreter Mxnet_model_interf_call
  congr 1
  rw [List.map_map]
  apply List.map_congr_left
  intro img himg
  simp only [Function.comp_apply, List.map_map]
  apply List.map_congr_left
  intro p hp
  simp only [Function.comp_apply]
  rw [Nat.mod_eq_of_lt (by have := hpix img himg p hp; omega)]

theorem c4_witness :
    mxnetInterpreter exQModel [[200]] = exQModel [[(200 : ℚ)]] :=
  (c4_fixed_normalization exQModel [[200]] (by decide)).2.2.2

/-- C5: the output arrays preserve the input iteration order: when the
interpreter embeds each image of a batch independently, record `i` of the
output equals the `i`-th record of the (possibly limit-truncated) dataset
scan - batching splits but never reorders the sequence. -/
theorem c5_order_preserved {Img : Type} (ds : Dataset) (imread : Str → Img)
    (interpreter : List Img → List Emb) (batch_size : Nat) (limit : Int)
    (f : Img → Emb)
    (hlen : ds.image_names.length = ds.image_classes.length)
    (hf : ∀ imgs, interpreter imgs = imgs.map f) :
    distilledNames ds batch_size limit = truncApply limit ds.image_names ∧
    distilledClasses ds batch_size limit = truncApply limit ds.image_classes ∧
    distilledEmbeddings ds imread interpreter batch_size limit =
      (truncApply limit ds.image_names).map (fun nm => f (imread nm)) := by
  refine ⟨distilledNames_eq_trunc ds batch_size limit hlen,
    distilledClasses_eq_trunc ds batch_size limit hlen, ?_⟩
  unfold distilledEmbeddings
  have h1 : ∀ b : List (Str × Nat),
      interpreter ((b.map Prod.fst).map imread) =
        b.map (fun r => f (imread r.1)) := by
    intro b
    rw [hf, List.map_map, List.map_map]
    rfl
  have h2 : (recordBatches ds batch_size limit).map
        (fun b => interpreter ((b.map Prod.fst).map imread)) =
      (recordBatches ds batch_size limit).map
        (List.map (fun r => f (imread r.1))) :=
    List.map_congr_left (fun b _ => h1 b)
  rw [h2, ← List.map_flatten, flatten_recordBatches,
    ← distilledNames_eq_trunc ds batch_size limit hlen, distilledNames_eq_map,
    List.map_map]
  rfl

theorem c5_witness :
    distilledNames exDS 256 (-1) = [("a.jpg").toList] ∧
    distilledEmbeddings exDS exImread exInterp 256 (-1) = [[(1 : ℚ)]] := by
  have h := c5_order_preserved exDS exImread exInterp 256 (-1)
    (fun _ => [(1 : ℚ)]) rfl (fun _ => rfl)
  exact ⟨h.1.trans (by decide), h.2.2.trans (by decide)⟩

/-- The name generated on line 107 always carries the `.npz` suffix. -/
theorem defaultDestName_endsWith (ds : Dataset) (n : Nat) :
    strEndsWith (defaultDestName ds n) npzext = true := by
  unfold defaultDestName
  exact strEndsWith_append _ npzext

theorem ensureNpz_defaultDestName (ds : Dataset) (n : Nat) :
    ensureNpz (defaultDestName ds n) = defaultDestName ds n := by
  unfold ensureNpz
  rw [if_pos (defaultDestName_endsWith ds n)]

/-- C6: when no destination file path is given, the archive file name is the
basename of `dataset_pickle_file_src` without its extension, concatenated with
"_label_embs_", the embedding dimensionality, and ".npz". -/
theorem c6_default_dest_name {Img : Type} (ds : Dataset) (imread : Str → Img)
    (interpreter : List Img → List Emb) (batch_size : Nat) (limit : Int)
    (e0 : Emb) (rest : List Emb)
    (h : distilledEmbeddings ds imread interpreter batch_size limit = e0 :: rest) :
    (data_distiller ds imread interpreter none batch_size limit).map Prod.fst =
      some (splitextRoot (basename ds.dataset_pickle_file_src) ++
        ("_label_embs_").toList ++ (toString e0.length).toList ++ npzext) := by
  simp only [data_distiller, h]
  rw [ensureNpz_defaultDestName]
  rfl

theorem c6_witness :
    (data_distiller exDS exImread exInterp none 256 (-1)).map Prod.fst =
      some (("faces_emore_label_embs_1.npz").toList) := by
  have h := c6_default_dest_name exDS exImread exInterp 256 (-1)
    [(1 : ℚ)] [] (by decide)
  exact h.trans (by decide)

/-- C7: within a single run, every embedding row stored in the output has the
same dimensionality, assuming the active adapter returns rows of a fixed
width `d` for every batch. -/
theorem c7_constant_dim {Img : Type} (ds : Dataset) (imread : Str → Img)
    (interpreter : List Img → List Emb) (batch_size : Nat) (limit : Int)
    (d : Nat) (hd : ∀ imgs e, e ∈ interpreter imgs → e.length = d) :
    ∀ e ∈ distilledEmbeddings ds imread interpreter batch_size limit,
      e.length = d := by
  intro e he
  unfold distilledEmbeddings at he
  rw [List.mem_flatten] at he
  obtain ⟨l, hl, hel⟩ := he
  rw [List.mem_map] at hl
  obtain ⟨b, hb, rfl⟩ := hl
  exact hd _ _ hel

theorem c7_witness :
    [(1 : ℚ)] ∈ distilledEmbeddings exDS exImread exInterp 256 (-1) ∧
    ([(1 : ℚ)] : Emb).length = 1 :=
  ⟨by decide,
   c7_constant_dim exDS exImread exInterp 256 (-1) 1
     (fun imgs e he => by
       simp only [exInterp] at he
       rw [List.mem_map] at he
       obtain ⟨a, _, rfl⟩ := he
       rfl)
     [(1 : ℚ)] (by decide)⟩

/-- C8: `data_distiller` is deterministic: two runs over equal dataset
contents with extensionally equal interpreters (same model), the same
destination, batch size, and limit produce identical outputs, including
bit-identical embeddings. -/
theorem c8_deterministic {Img : Type} (ds₁ ds₂ : Dataset) (imread : Str → Img)
    (interp₁ interp₂ : List Img → List Emb) (dest_file : Option Str)
    (batch_size : Nat) (limit : Int)
    (hds : ds₁ = ds₂) (hinterp : ∀ imgs, interp₁ imgs = interp₂ imgs) :
    data_distiller ds₁ imread interp₁ dest_file batch_size limit =
      data_distiller ds₂ imread interp₂ dest_file batch_size limit := by
  have h : interp₁ = interp₂ := funext hinterp
  rw [hds, h]

theorem c8_witness :
    data_distiller exDS exImread exInterp (some (("out").toList)) 256 (-1) =
      data_distiller exDS exImread exInterp (some (("out").toList)) 256 (-1) :=
  c8_deterministic exDS exDS exImread exInterp exInterp
    (some (("out").toList)) 256 (-1) rfl (fun _ => rfl)

/-- C9: with `dest_file = None`, the run fails (the `IndexError` of
`embeddings[0]` on line 107, modelled as `none`) exactly when the possibly
limit-truncated dataset yields zero records; a non-empty record set is a
precondition for the default-naming path to succeed. -/
theorem c9_empty_default_fails {Img : Type} (ds : Dataset) (imread : Str → Img)
    (interpreter : List Img → List Emb) (batch_size : Nat) (limit : Int)
    (hlen : ds.image_names.length = ds.image_classes.length)
    (hI : ∀ imgs, (interpreter imgs).length = imgs.length) :
    data_distiller ds imread interpreter none batch_size limit = none ↔
      truncApply limit ds.image_names = [] := by
  have hlen2 : (distilledEmbeddings ds imread interpreter batch_size limit).length =
      (truncApply limit ds.image_names).length := by
    rw [length_distilledEmbeddings ds imread interpreter batch_size limit hI]
    unfold records
    rw [List.length_zip, ← truncApply_length_eq limit hlen, Nat.min_self]
  cases hE : distilledEmbeddings ds imread interpreter batch_size limit with
  | nil =>
    rw [hE] at hlen2
    constructor
    · intro _
      exact List.length_eq_zero.mp hlen2.symm
    · intro _
      simp only [data_distiller, hE]
  | cons e0 rest =>
    rw [hE] at hlen2
    constructor
    · intro hcontra
      simp only [data_distiller, hE] at hcontra
      exact Option.noConfusion hcontra
    · intro htrunc
      rw [htrunc] at hlen2
      simp at hlen2

theorem c9_witness :
    data_distiller exEmptyDS exImread exInterp none 256 (-1) = none :=
  (c9_empty_default_fails exEmptyDS exImread exInterp 256 (-1) rfl
    (fun imgs => by simp [exInterp])).mpr (by decide)

/-- Output value used by the C10 witness. -/
def exOut : Str × (List Str × List Nat × List Emb) :=
  ((("out.npz").toList), ([("a.jpg").toList], [0], [[(1 : ℚ)]]))

/-- C10: every file path `data_distiller` writes to and returns ends with
".npz"; for a supplied destination the suffix is appended exactly when the
path does not already end with it. -/
theorem c10_npz_suffix {Img : Type} (ds : Dataset) (imread : Str → Img)
    (interpreter : List Img → List Emb) (dest_file : Option Str)
    (batch_size : Nat) (limit : Int)
    (out : Str × (List Str × List Nat × List Emb))
    (h : data_distiller ds imread interpreter dest_file batch_size limit =
      some out) :
    strEndsWith out.1 npzext = true ∧
    (∀ d, dest_file = some d →
      out.1 = (if strEndsWith d npzext then d else d ++ npzext)) := by
  cases dest_file with
  | some d =>
    simp only [data_distiller] at h
    injection h with h2
    constructor
    · rw [← h2]
      exact ensureNpz_endsWith d
    · intro d' hd'
      injection hd' with hdd
      rw [← h2, ← hdd]
      rfl
  | none =>
    cases hE : distilledEmbeddings ds imread interpreter batch_size limit with
    | nil =>
      simp only [data_distiller, hE] at h
      exact Option.noConfusion h
    | cons e0 rest =>
      simp only [data_distiller, hE] at h
      injection h with h2
      constructor
      · rw [← h2]
        exact ensureNpz_endsWith _
      · intro d hd
        exact absurd hd (by simp)

theorem c10_witness : strEndsWith exOut.1 npzext = true :=
  (c10_npz_suffix exDS exImread exInterp (some (("out").toList)) 256 (-1) exOut
    (by decide)).1

end DataDistiller
